import Mathlib

/-!
Verification of the whatsminer-api-3 client against its design document.

The development shallowly embeds the two core modules:

* `whatsminer_interface.py` (class `WhatsminerAPIv3`, the "Command Codec"):
  token generation, parameter encryption, envelope builders;
* `whatsminer_trans.py` (class `WhatsminerTCP`, the "Framer"):
  length-prefixed framing, the response-receiving loop, connection close.

Python strings are embedded as Lean `String`; byte strings (`bytes`) as
`List Nat` with every element a byte value.  `hashlib.sha256` and
`base64.b64encode` are implemented in full (FIPS 180-4 / RFC 4648).  The AES
block cipher from PyCryptodome is kept abstract: operations that use
`AES.new(key, AES.MODE_ECB)` take the per-key block function as an explicit
argument, and ECB mode (independent encryption of consecutive 16-byte
blocks) is modelled concretely.
-/

namespace Whatsminer

/-! ## UTF-8 encoding (Python `str.encode("utf-8")`) -/

/-- The UTF-8 encoding of a single code point. -/
def utf8Char (c : Char) : List Nat :=
  let n := c.toNat
  if n < 128 then [n]
  else if n < 2048 then [192 + n / 64, 128 + n % 64]
  else if n < 65536 then [224 + n / 4096, 128 + n / 64 % 64, 128 + n % 64]
  else [240 + n / 262144, 128 + n / 4096 % 64, 128 + n / 64 % 64, 128 + n % 64]

/-- The UTF-8 bytes of a string, as `str.encode("utf-8")` produces them. -/
def utf8 (s : String) : List Nat :=
  (s.data.map utf8Char).flatten

/-! ## SHA-256 (Python `hashlib.sha256`, per FIPS 180-4) -/

/-- Truncation to a 32-bit word. -/
def w32 (n : Nat) : Nat := n % 4294967296

/-- Right rotation of a 32-bit word by `k` bits. -/
def rotr32 (k x : Nat) : Nat := x / 2 ^ k + x % 2 ^ k * 2 ^ (32 - k)

/-- Logical right shift of a 32-bit word by `k` bits. -/
def shr32 (k x : Nat) : Nat := x / 2 ^ k

def sha256Ch (x y z : Nat) : Nat := Nat.xor (Nat.land x y) (Nat.land (4294967295 - x) z)

def sha256Maj (x y z : Nat) : Nat :=
  Nat.xor (Nat.xor (Nat.land x y) (Nat.land x z)) (Nat.land y z)

def sha256S0 (x : Nat) : Nat := Nat.xor (Nat.xor (rotr32 2 x) (rotr32 13 x)) (rotr32 22 x)

def sha256S1 (x : Nat) : Nat := Nat.xor (Nat.xor (rotr32 6 x) (rotr32 11 x)) (rotr32 25 x)

def sha256s0 (x : Nat) : Nat := Nat.xor (Nat.xor (rotr32 7 x) (rotr32 18 x)) (shr32 3 x)

def sha256s1 (x : Nat) : Nat := Nat.xor (Nat.xor (rotr32 17 x) (rotr32 19 x)) (shr32 10 x)

/-- The 64 SHA-256 round constants (FIPS 180-4 §4.2.2), as decimal
values. -/
def sha256K : List Nat :=
  [1116352408, 1899447441, 3049323471, 3921009573, 961987163, 1508970993,
   2453635748, 2870763221, 3624381080, 310598401, 607225278, 1426881987,
   1925078388, 2162078206, 2614888103, 3248222580, 3835390401, 4022224774,
   264347078, 604807628, 770255983, 1249150122, 1555081692, 1996064986,
   2554220882, 2821834349, 2952996808, 3210313671, 3336571891, 3584528711,
   113926993, 338241895, 666307205, 773529912, 1294757372, 1396182291,
   1695183700, 1986661051, 2177026350, 2456956037, 2730485921, 2820302411,
   3259730800, 3345764771, 3516065817, 3600352804, 4094571909, 275423344,
   430227734, 506948616, 659060556, 883997877, 958139571, 1322822218,
   1537002063, 1747873779, 1955562222, 2024104815, 2227730452, 2361852424,
   2428436474, 2756734187, 3204031479, 3329325298]

/-- The SHA-256 initial hash value (FIPS 180-4 §5.3.3), as decimal
values. -/
def sha256H0 : List Nat :=
  [1779033703, 3144134277, 1013904242, 2773480762,
   1359893119, 2600822924, 528734635, 1541459225]

/-- Big-endian 8-byte encoding of a 64-bit value. -/
def be64 (n : Nat) : List Nat :=
  [n / 2 ^ 56 % 256, n / 2 ^ 48 % 256, n / 2 ^ 40 % 256, n / 2 ^ 32 % 256,
   n / 2 ^ 24 % 256, n / 2 ^ 16 % 256, n / 2 ^ 8 % 256, n % 256]

/-- Big-endian 4-byte encoding of a 32-bit word. -/
def wordBE (n : Nat) : List Nat :=
  [n / 16777216 % 256, n / 65536 % 256, n / 256 % 256, n % 256]

/-- SHA-256 message padding: a `0x80` byte, zero bytes up to 56 mod 64, then
the bit length as a 64-bit big-endian value. -/
def sha256Pad (msg : List Nat) : List Nat :=
  let L := msg.length
  msg ++ [128] ++ List.replicate ((64 - (L + 9) % 64) % 64) 0 ++ be64 (8 * L)

/-- Groups a byte list into 32-bit big-endian words. -/
def be32Words : List Nat → List Nat
  | a :: b :: c :: d :: rest => (a * 16777216 + b * 65536 + c * 256 + d) :: be32Words rest
  | _ => []

/-- Extends the 16-word message schedule by `fuel` further words. -/
def extendSchedule : Nat → List Nat → List Nat
  | 0, w => w
  | n + 1, w =>
    let i := w.length
    extendSchedule n
      (w ++ [w32 (sha256s1 (w.getD (i - 2) 0) + w.getD (i - 7) 0 +
                  sha256s0 (w.getD (i - 15) 0) + w.getD (i - 16) 0)])

/-- One SHA-256 compression round; `kw` is the round constant plus the
schedule word, `st` the working variables `[a,b,c,d,e,f,g,h]`. -/
def sha256Round (st : List Nat) (kw : Nat) : List Nat :=
  match st with
  | [a, b, c, d, e, f, g, h] =>
    let t1 := w32 (h + sha256S1 e + sha256Ch e f g + kw)
    let t2 := w32 (sha256S0 a + sha256Maj a b c)
    [w32 (t1 + t2), a, b, c, w32 (d + t1), e, f, g]
  | other => other

/-- Processes one 64-byte block into the running hash value. -/
def sha256Block (h : List Nat) (block : List Nat) : List Nat :=
  let w := extendSchedule 48 (be32Words block)
  let kw := (sha256K.zip w).map fun p => w32 (p.1 + p.2)
  let st := kw.foldl sha256Round h
  (h.zip st).map fun p => w32 (p.1 + p.2)

/-- Groups `bs` into consecutive chunks of `k` bytes (the last chunk may be
shorter); the first argument is recursion fuel, always called with
`bs.length`. -/
def chunksAux (k : Nat) : Nat → List Nat → List (List Nat)
  | 0, _ => []
  | _ + 1, [] => []
  | fuel + 1, bs => bs.take k :: chunksAux k fuel (bs.drop k)

/-- Groups a byte list into consecutive chunks of `k` bytes. -/
def chunksOf (k : Nat) (bs : List Nat) : List (List Nat) :=
  chunksAux k bs.length bs

/-- The SHA-256 digest (32 bytes) of a byte string, as
`hashlib.sha256(data).digest()` computes it. -/
def sha256 (msg : List Nat) : List Nat :=
  (((chunksOf 64 (sha256Pad msg)).foldl sha256Block sha256H0).map wordBE).flatten

/-! ## Base64 (Python `base64.b64encode`, RFC 4648) -/

def b64Alphabet : List Char :=
  "ABCDEFGHIJKLMNOPQRSTUVWXYZabcdefghijklmnopqrstuvwxyz0123456789+/".data

def b64Char (n : Nat) : Char := b64Alphabet.getD n 'A'

/-- Base64 text for a byte list, including `=` padding. -/
def base64Chars : List Nat → List Char
  | [] => []
  | [a] => [b64Char (a / 4), b64Char (a % 4 * 16), '=', '=']
  | [a, b] => [b64Char (a / 4), b64Char (a % 4 * 16 + b / 16), b64Char (b % 16 * 4), '=']
  | a :: b :: c :: rest =>
    b64Char (a / 4) :: b64Char (a % 4 * 16 + b / 16) ::
      b64Char (b % 16 * 4 + c / 64) :: b64Char (c % 64) :: base64Chars rest

/-- `base64.b64encode(data).decode()`: the base64 text of a byte string. -/
def base64EncodeStr (bs : List Nat) : String := String.mk (base64Chars bs)

/-! ## Command Codec (`whatsminer_interface.py`, class `WhatsminerAPIv3`) -/

/-- `WhatsminerAPIv3._generate_token` (lines 34-48): the authentication
token for a command at a timestamp, given the instance's password and
salt.  Mirrors the Python body: `src_buff` is the f-string concatenation
of command, password, salt and the decimal timestamp; the token is the
first 8 characters of the base64 text of its SHA-256 digest. -/
def generate_token (password salt : String) (command : String) (ts : Nat) : String :=
  let src_buff := command ++ password ++ salt ++ toString ts
  let aes_key := sha256 (utf8 src_buff)
  let dst_buff := base64EncodeStr aes_key
  dst_buff.take 8

/-- The padding step of `WhatsminerAPIv3._encrypt_param` (lines 64-65):
`pad_len = 16 - (len(param) % 16)` repetitions of `chr(pad_len)` appended
to the parameter string. -/
def pad_param (param : String) : String :=
  let pad_len := 16 - param.length % 16
  param ++ String.mk (List.replicate pad_len (Char.ofNat pad_len))

/-- ECB-mode encryption (PyCryptodome `AES.MODE_ECB`): each consecutive
16-byte block is encrypted independently by the per-key block function. -/
def ecbEncryptWith (encBlock : List Nat → List Nat) (bs : List Nat) : List Nat :=
  ((chunksOf 16 bs).map encBlock).flatten

/-- ECB-mode decryption: each consecutive 16-byte block is decrypted
independently by the per-key block function. -/
def ecbDecryptWith (decBlock : List Nat → List Nat) (bs : List Nat) : List Nat :=
  ((chunksOf 16 bs).map decBlock).flatten

/-- `WhatsminerAPIv3._encrypt_param` (lines 50-68): derives the AES key
from command, password, salt and timestamp, pads the parameter, encrypts
with AES-256-ECB and base64-encodes the ciphertext.  The AES block cipher
itself (`AES.new(aes_key, AES.MODE_ECB).encrypt`) is abstracted as the
argument `aes`, mapping a 32-byte key to its 16-byte block function. -/
def encrypt_param (aes : List Nat → List Nat → List Nat) (password salt : String)
    (param command : String) (ts : Nat) : String :=
  let src_buff := command ++ password ++ salt ++ toString ts
  let aes_key := sha256 (utf8 src_buff)
  base64EncodeStr (ecbEncryptWith (aes aes_key) (utf8 (pad_param param)))

/-- The padding of `_encrypt_param` viewed on raw bytes: append
`16 - (L mod 16)` copies of that same value to a byte string of length
`L`. -/
def padBytes (pt : List Nat) : List Nat :=
  pt ++ List.replicate (16 - pt.length % 16) (16 - pt.length % 16)

/-- Removal of the padding: strip from the end as many bytes as the value
of the last byte. -/
def unpad (bs : List Nat) : List Nat := bs.take (bs.length - bs.getLastD 0)

/-- Follows the spec's words (§4.2 `deriveKeyMaterial`): SHA-256 over the
UTF-8 concatenation, in this exact order, of the command string, the
password, the current salt, and the decimal string form of `ts`. -/
def deriveKeyMaterial (cmd password salt : String) (ts : Nat) : List Nat :=
  sha256 (utf8 cmd ++ utf8 password ++ utf8 salt ++ utf8 (Nat.repr ts))

/-- Follows the spec's words (§4.2 `deriveToken`): base64-encode the key
material and take the first 8 characters of that base64 text. -/
def deriveToken (cmd password salt : String) (ts : Nat) : String :=
  (base64EncodeStr (deriveKeyMaterial cmd password salt ts)).take 8

/-! ## JSON values and Python `json.dumps` -/

/-- The JSON values appearing in the envelopes the Codec builds. -/
inductive JVal where
  | null
  | str (s : String)
  | num (n : Int)
  | arr (elems : List JVal)
  | obj (members : List (String × JVal))

def hexDigitChar (n : Nat) : Char := "0123456789abcdef".data.getD n '0'

/-- A `\uXXXX` escape for a UTF-16 code unit, lowercase hex. -/
def uescape (n : Nat) : List Char :=
  ['\\', 'u', hexDigitChar (n / 4096 % 16), hexDigitChar (n / 256 % 16),
   hexDigitChar (n / 16 % 16), hexDigitChar (n % 16)]

/-- Escaping of one character inside a JSON string literal, as Python
`json.dumps` does with its default `ensure_ascii=True`. -/
def jEscapeChar (c : Char) : List Char :=
  if c = '"' then ['\\', '"']
  else if c = '\\' then ['\\', '\\']
  else if c = '\n' then ['\\', 'n']
  else if c = '\t' then ['\\', 't']
  else if c = '\r' then ['\\', 'r']
  else if c.toNat = 8 then ['\\', 'b']
  else if c.toNat = 12 then ['\\', 'f']
  else if c.toNat < 32 then uescape c.toNat
  else if c.toNat < 128 then [c]
  else if c.toNat < 65536 then uescape c.toNat
  else uescape (55296 + (c.toNat - 65536) / 1024) ++ uescape (56320 + (c.toNat - 65536) % 1024)

/-- The JSON text of a string value. -/
def jstr (s : String) : String :=
  "\"" ++ String.mk (s.data.map jEscapeChar).flatten ++ "\""

mutual

/-- Python `json.dumps` with default options: item separator `", "`, key
separator `": "`, members in insertion order. -/
def jdump : JVal → String
  | .null => "null"
  | .str s => jstr s
  | .num n => toString n
  | .arr elems => "[" ++ jdumpArr elems ++ "]"
  | .obj members => "\x7b" ++ jdumpObj members ++ "\x7d"

def jdumpArr : List JVal → String
  | [] => ""
  | [v] => jdump v
  | v :: w :: rest => jdump v ++ ", " ++ jdumpArr (w :: rest)

def jdumpObj : List (String × JVal) → String
  | [] => ""
  | [(k, v)] => jstr k ++ ": " ++ jdump v
  | (k, v) :: m :: rest => jstr k ++ ": " ++ jdump v ++ ", " ++ jdumpObj (m :: rest)

end

/-! ## Envelope builders (`whatsminer_interface.py`) -/

/-- The payload dict built by `WhatsminerAPIv3.get_request_cmds`
(lines 70-82), in insertion order.  A Python `param=None` (the default)
is `Option.none` and lands in the dict as JSON `null`. -/
def get_request_cmds_obj (cmd : String) (param : Option JVal) : List (String × JVal) :=
  [("cmd", .str cmd), ("param", param.getD .null)]

/-- `WhatsminerAPIv3.get_request_cmds` (lines 70-82): the serialized
unauthenticated envelope. -/
def get_request_cmds (cmd : String) (param : Option JVal) : String :=
  jdump (.obj (get_request_cmds_obj cmd param))

/-- The payload dict built by `WhatsminerAPIv3.set_request_cmds`
(lines 84-101), in insertion order: `cmd` and `param` from the dict
literal, then `ts`, `token`, `account` assigned one by one.  The
timestamp `int(time.time())` is passed in explicitly. -/
def set_request_cmds_obj (account password salt : String) (cmd : String)
    (param : Option JVal) (ts : Nat) : List (String × JVal) :=
  [("cmd", .str cmd), ("param", param.getD .null), ("ts", .num (ts : Int)),
   ("token", .str (generate_token password salt cmd ts)), ("account", .str account)]

/-- `WhatsminerAPIv3.set_request_cmds` (lines 84-101): the serialized
authenticated-plain envelope. -/
def set_request_cmds (account password salt cmd : String) (param : Option JVal)
    (ts : Nat) : String :=
  jdump (.obj (set_request_cmds_obj account password salt cmd param ts))

/-- The `param_data` list of `WhatsminerAPIv3.set_miner_pools`
(lines 163-179). -/
def set_miner_pools_param (pool_url1 work_user1 work_passwd1 pool_url2 work_user2
    work_passwd2 pool_url3 work_user3 work_passwd3 : String) : JVal :=
  .arr [.obj [("pool", .str pool_url1), ("worker", .str work_user1), ("passwd", .str work_passwd1)],
        .obj [("pool", .str pool_url2), ("worker", .str work_user2), ("passwd", .str work_passwd2)],
        .obj [("pool", .str pool_url3), ("worker", .str work_user3), ("passwd", .str work_passwd3)]]

/-- The payload dict built by `WhatsminerAPIv3.set_miner_pools`
(lines 149-194), in insertion order: `cmd` from the dict literal, then
`ts`, `token`, `account`, `param` from the single `payload.update` call;
`param` is the encrypted, base64-encoded JSON text of `param_data`. -/
def set_miner_pools_obj (aes : List Nat → List Nat → List Nat)
    (account password salt : String)
    (pool_url1 work_user1 work_passwd1 pool_url2 work_user2 work_passwd2
     pool_url3 work_user3 work_passwd3 : String) (ts : Nat) : List (String × JVal) :=
  let command := "set.miner.pools"
  [("cmd", .str command), ("ts", .num (ts : Int)),
   ("token", .str (generate_token password salt command ts)),
   ("account", .str account),
   ("param", .str (encrypt_param aes password salt
      (jdump (set_miner_pools_param pool_url1 work_user1 work_passwd1 pool_url2
        work_user2 work_passwd2 pool_url3 work_user3 work_passwd3)) command ts))]

/-- `WhatsminerAPIv3.set_miner_pools` (lines 149-194): the serialized
authenticated-encrypted envelope. -/
def set_miner_pools (aes : List Nat → List Nat → List Nat)
    (account password salt : String)
    (pool_url1 work_user1 work_passwd1 pool_url2 work_user2 work_passwd2
     pool_url3 work_user3 work_passwd3 : String) (ts : Nat) : String :=
  jdump (.obj (set_miner_pools_obj aes account password salt pool_url1 work_user1
    work_passwd1 pool_url2 work_user2 work_passwd2 pool_url3 work_user3
    work_passwd3 ts))

/-- The payload dict built by `WhatsminerAPIv3.set_user_passwd`
(lines 258-276), in insertion order; `param` is the encrypted,
base64-encoded JSON text of `param_data`. -/
def set_user_passwd_obj (aes : List Nat → List Nat → List Nat)
    (account password salt : String) (username old_passwd new_passwd : String)
    (ts : Nat) : List (String × JVal) :=
  let cmd := "set.user.change_passwd"
  let param_data : JVal :=
    .obj [("account", .str username), ("new", .str new_passwd), ("old", .str old_passwd)]
  [("cmd", .str cmd), ("ts", .num (ts : Int)),
   ("token", .str (generate_token password salt cmd ts)),
   ("account", .str account),
   ("param", .str (encrypt_param aes password salt (jdump param_data) cmd ts))]

/-- `WhatsminerAPIv3.set_miner_cointype` (lines 126-129): wraps the coin
type in a dict, serializes it, and sends it through the
authenticated-plain builder. -/
def set_miner_cointype (account password salt cointype : String) (ts : Nat) : String :=
  set_request_cmds account password salt "set.miner.cointype"
    (some (.str (jdump (.obj [("cointype", .str cointype)])))) ts

/-! ## Framer (`whatsminer_trans.py`, class `WhatsminerTCP`)

The socket is modelled by an oracle of `recv` results: `lengthData` is
what the single `recv(4)` call for the length header returned, and
`chunks` lists what each subsequent `recv` call in the body loop returns,
an exhausted oracle (or an empty chunk) meaning the peer has closed.
`bytes.decode()` on the received buffer is modelled as the identity on
byte lists; the claims under study concern byte counts and failure
behaviour, not text decoding. -/

/-- A raised Python exception.  The source raises `RuntimeError`
(`whatsminer_trans.py` lines 49 and 57), can propagate `OSError` from
socket calls, and can propagate `UnicodeDecodeError` from
`buffer.decode()` (line 91); `protocolError` renders the `ProtocolError`
class that the design document's error taxonomy names but the source
never defines or raises, so that statements about it can be written
down. -/
inductive PyErr where
  | runtimeError (msg : String)
  | osError (errno : String)
  | unicodeDecodeError
  | protocolError (msg : String)
  deriving DecidableEq

/-- `struct.pack("<I", n)`: the 4-byte little-endian encoding of `n`,
defined for `n < 2^32` (beyond that `struct.pack` raises, outside every
claim's range). -/
def packLE32 (n : Nat) : List Nat :=
  [n % 256, n / 256 % 256, n / 65536 % 256, n / 16777216 % 256]

/-- `struct.unpack("<I", bs)[0]` on the first four bytes. -/
def unpackLE32 (bs : List Nat) : Nat :=
  bs.getD 0 0 + bs.getD 1 0 * 256 + bs.getD 2 0 * 65536 + bs.getD 3 0 * 16777216

/-- The bytes `WhatsminerTCP.send` (lines 51-53) writes to the socket:
`struct.pack("<I", message_length)` followed by `message.encode()`.  The
header value is the caller-supplied `message_length` argument, not the
length of the encoded message; `none` models the `struct.error` raised
when `message_length` does not fit an unsigned 32-bit integer. -/
def send_frame (message : String) (message_length : Nat) : Option (List Nat) :=
  if message_length < 4294967296 then some (packLE32 message_length ++ utf8 message)
  else none

/-- The body-receiving loop of `WhatsminerTCP._receive_response`
(lines 85-89): accumulate `recv` results into `buffer` until `rsp_len`
bytes have arrived, stopping early (with the short buffer) when a `recv`
returns no data. -/
def recvLoop (rsp_len : Nat) : List (List Nat) → List Nat → List Nat
  | [], buffer => buffer
  | c :: rest, buffer =>
    if rsp_len ≤ buffer.length then buffer
    else if c.isEmpty then buffer
    else recvLoop rsp_len rest (buffer ++ c)

/-- `WhatsminerTCP._receive_response` (lines 61-91) after a successful
connect, viewed at the byte level (up to line 91's `buffer.decode()`,
which `receive_response_decoded` below adds): `none` when fewer than 4
header bytes arrive or the declared length exceeds 8192, otherwise the
bytes the body loop accumulated.  `recv(4)` returns at most 4 bytes, so
`lengthData` longer than 4 is unreachable. -/
def receive_response (lengthData : List Nat) (chunks : List (List Nat)) :
    Option (List Nat) :=
  if lengthData.length < 4 then none
  else if 8192 < unpackLE32 lengthData then none
  else some (recvLoop (unpackLE32 lengthData) chunks [])

/-- Strict UTF-8 decoding, as Python `bytes.decode()` performs with its
default `utf-8`/`strict` codec: `none` models the `UnicodeDecodeError`
raised on stray continuation bytes, truncated multi-byte sequences,
overlong encodings, surrogates, and code points beyond `U+10FFFF`.  The
first argument is recursion fuel, always called with the byte count. -/
def utf8DecodeAux : Nat → List Nat → Option (List Char)
  | 0, [] => some []
  | 0, _ :: _ => none
  | _ + 1, [] => some []
  | fuel + 1, b :: rest =>
    if b < 128 then
      (utf8DecodeAux fuel rest).map fun cs => Char.ofNat b :: cs
    else if b < 192 then none
    else if b < 224 then
      match rest with
      | b1 :: rest1 =>
        if 128 ≤ b1 ∧ b1 < 192 then
          let n := (b - 192) * 64 + (b1 - 128)
          if n < 128 then none
          else (utf8DecodeAux fuel rest1).map fun cs => Char.ofNat n :: cs
        else none
      | [] => none
    else if b < 240 then
      match rest with
      | b1 :: b2 :: rest2 =>
        if (128 ≤ b1 ∧ b1 < 192) ∧ (128 ≤ b2 ∧ b2 < 192) then
          let n := (b - 224) * 4096 + (b1 - 128) * 64 + (b2 - 128)
          if n < 2048 then none
          else if 55296 ≤ n ∧ n < 57344 then none
          else (utf8DecodeAux fuel rest2).map fun cs => Char.ofNat n :: cs
        else none
      | _ => none
    else if b < 245 then
      match rest with
      | b1 :: b2 :: b3 :: rest3 =>
        if (128 ≤ b1 ∧ b1 < 192) ∧ (128 ≤ b2 ∧ b2 < 192) ∧ (128 ≤ b3 ∧ b3 < 192) then
          let n := (b - 240) * 262144 + (b1 - 128) * 4096 +
            (b2 - 128) * 64 + (b3 - 128)
          if n < 65536 then none
          else if 1114111 < n then none
          else (utf8DecodeAux fuel rest3).map fun cs => Char.ofNat n :: cs
        else none
      | _ => none
    else none

/-- `bytes.decode()`: the string when the bytes are valid UTF-8, `none`
for the raised `UnicodeDecodeError` otherwise. -/
def utf8Decode (bs : List Nat) : Option String :=
  (utf8DecodeAux bs.length bs).map String.mk

/-- `WhatsminerTCP._receive_response` (lines 61-91) including line 91's
`buffer.decode()`: `.ok none` models the early `return None` paths
(short length header, oversized declared length), `.ok (some s)` the
normal return of the decoded buffer, and `.error .unicodeDecodeError`
the `UnicodeDecodeError` that `decode` raises when the accumulated
buffer is not valid UTF-8 — as a truncated delivery can leave it. -/
def receive_response_decoded (lengthData : List Nat) (chunks : List (List Nat)) :
    Except PyErr (Option String) :=
  if lengthData.length < 4 then .ok none
  else if 8192 < unpackLE32 lengthData then .ok none
  else match utf8Decode (recvLoop (unpackLE32 lengthData) chunks []) with
    | some s => .ok (some s)
    | none => .error .unicodeDecodeError

/-- The response handling of `WhatsminerTCP.send` (lines 54-59): a `None`
from `_receive_response` becomes `RuntimeError("Failed to receive
response")`; otherwise the received bytes are the result (`json.loads` is
outside the claims and not modelled). -/
def send_result (lengthData : List Nat) (chunks : List (List Nat)) :
    Except PyErr (List Nat) :=
  match receive_response lengthData chunks with
  | none => .error (.runtimeError "Failed to receive response")
  | some buffer => .ok buffer

/-- The life of the socket object held in `WhatsminerTCP.sock`:
`connect` (line 28) creates it unconnected, then connects it (line 29);
`close` closes it.  `notConnected` is the state when `socket.connect`
raised after the object was assigned. -/
inductive SockPhase where
  | notConnected
  | connected
  | closedSock
  deriving DecidableEq

/-- Models CPython `socket.shutdown(SHUT_RDWR)`: succeeds on a connected
socket and raises `OSError` otherwise — `ENOTCONN` when the socket was
never connected, `EBADF` when it has already been closed. -/
def sock_shutdown : SockPhase → Except PyErr SockPhase
  | .connected => .ok .connected
  | .notConnected => .error (.osError "ENOTCONN")
  | .closedSock => .error (.osError "EBADF")

/-- Models CPython `socket.close()`: never raises. -/
def sock_close : SockPhase → SockPhase := fun _ => .closedSock

/-- `WhatsminerTCP.close` (lines 31-35): when `self.sock` is set, call
`shutdown(SHUT_RDWR)` then `close()` on it.  The method never resets
`self.sock` to `None`, so the attribute still holds the (now closed)
socket object afterwards; an exception from `shutdown` propagates with
the state unchanged. -/
def tcp_close : Option SockPhase → Except PyErr (Option SockPhase)
  | none => .ok none
  | some ph =>
    match sock_shutdown ph with
    | .error e => .error e
    | .ok ph2 => .ok (some (sock_close ph2))

/-! ## Helper lemmas -/

theorem utf8_append (s t : String) : utf8 (s ++ t) = utf8 s ++ utf8 t := by
  simp [utf8, String.data_append]

theorem unpackLE32_packLE32 (n : Nat) (h : n < 4294967296) :
    unpackLE32 (packLE32 n) = n := by
  have hr : unpackLE32 (packLE32 n) =
      n % 256 + n / 256 % 256 * 256 + n / 65536 % 256 * 65536 +
        n / 16777216 % 256 * 16777216 := rfl
  rw [hr]
  omega

theorem length_packLE32 (n : Nat) : (packLE32 n).length = 4 := rfl

/-- With enough fuel, chunking a byte list whose length is a multiple of
16 yields blocks of exactly 16 bytes that flatten back to the list. -/
theorem chunksAux16_spec : ∀ (fuel : Nat) (bs : List Nat), bs.length ≤ fuel →
    bs.length % 16 = 0 →
    (∀ b ∈ chunksAux 16 fuel bs, b.length = 16) ∧ (chunksAux 16 fuel bs).flatten = bs := by
  intro fuel
  induction fuel with
  | zero =>
    intro bs hle _
    have : bs = [] := List.eq_nil_of_length_eq_zero (Nat.le_zero.mp hle)
    subst this
    simp [chunksAux]
  | succ f ih =>
    intro bs hle hmod
    match bs with
    | [] => simp [chunksAux]
    | a :: l =>
      have hmod2 : (l.length + 1) % 16 = 0 := by simpa using hmod
      have hle2 : l.length + 1 ≤ f + 1 := by simpa using hle
      have hlen : 16 ≤ l.length + 1 := by omega
      have htake : ((a :: l).take 16).length = 16 := by
        simp only [List.length_take, List.length_cons]
        omega
      have hdroplen : ((a :: l).drop 16).length = l.length + 1 - 16 := by
        simp
      have hih := ih ((a :: l).drop 16) (by rw [hdroplen]; omega)
        (by rw [hdroplen]; omega)
      constructor
      · intro b hb
        simp only [chunksAux, List.mem_cons] at hb
        rcases hb with hb | hb
        · rw [hb]; exact htake
        · exact hih.1 b hb
      · simp only [chunksAux, List.flatten_cons, hih.2]
        exact List.take_append_drop 16 (a :: l)

theorem chunksOf16_spec (bs : List Nat) (hmod : bs.length % 16 = 0) :
    (∀ b ∈ chunksOf 16 bs, b.length = 16) ∧ (chunksOf 16 bs).flatten = bs :=
  chunksAux16_spec bs.length bs (Nat.le_refl _) hmod

/-- Chunking the flattening of a list of 16-byte blocks recovers the
blocks. -/
theorem chunksAux16_flatten : ∀ (blocks : List (List Nat)) (fuel : Nat),
    (∀ b ∈ blocks, b.length = 16) → blocks.flatten.length ≤ fuel →
    chunksAux 16 fuel blocks.flatten = blocks := by
  intro blocks
  induction blocks with
  | nil =>
    intro fuel _ _
    match fuel with
    | 0 => rfl
    | _ + 1 => rfl
  | cons b rest ih =>
    intro fuel hall hle
    have hb : b.length = 16 := hall b (List.mem_cons_self b rest)
    have hflat : (b :: rest).flatten = b ++ rest.flatten := List.flatten_cons ..
    have hlen : (b :: rest).flatten.length = 16 + rest.flatten.length := by
      rw [hflat, List.length_append, hb]
    match fuel with
    | 0 => omega
    | f + 1 =>
      have hne : (b :: rest).flatten ≠ [] := by
        intro hcon
        have h0 : (b :: rest).flatten.length = 0 := by rw [hcon]; rfl
        omega
      have htake : (b :: rest).flatten.take 16 = b := by
        rw [hflat, ← hb, List.take_left]
      have hdrop : (b :: rest).flatten.drop 16 = rest.flatten := by
        rw [hflat, ← hb, List.drop_left]
      match hflateq : (b :: rest).flatten with
      | [] => exact absurd hflateq hne
      | x :: xs =>
        simp only [chunksAux]
        rw [← hflateq, htake, hdrop]
        have : rest.flatten.length ≤ f := by
          rw [hflateq] at hlen
          have := hle
          rw [hflateq] at this
          omega
        rw [ih f (fun c hc => hall c (List.mem_cons_of_mem b hc)) this]

/-- ECB decryption undoes ECB encryption on inputs that are a whole
number of blocks, for any per-block inverse pair. -/
theorem ecb_roundtrip (enc dec : List Nat → List Nat) (bs : List Nat)
    (henc : ∀ b, b.length = 16 → (enc b).length = 16)
    (hdec : ∀ b, b.length = 16 → dec (enc b) = b)
    (hmod : bs.length % 16 = 0) :
    ecbDecryptWith dec (ecbEncryptWith enc bs) = bs := by
  obtain ⟨hall, hflat⟩ := chunksOf16_spec bs hmod
  set blocks := chunksOf 16 bs with hblocks
  have hencall : ∀ c ∈ blocks.map enc, c.length = 16 := by
    intro c hc
    obtain ⟨b, hb, rfl⟩ := List.mem_map.mp hc
    exact henc b (hall b hb)
  have hchunks : chunksOf 16 ((blocks.map enc).flatten) = blocks.map enc :=
    chunksAux16_flatten (blocks.map enc) ((blocks.map enc).flatten).length hencall
      (Nat.le_refl _)
  calc ecbDecryptWith dec (ecbEncryptWith enc bs)
      = ((chunksOf 16 ((blocks.map enc).flatten)).map dec).flatten := rfl
    _ = ((blocks.map enc).map dec).flatten := by rw [hchunks]
    _ = (blocks.map (fun b => dec (enc b))).flatten := by rw [List.map_map]; rfl
    _ = blocks.flatten := by
        congr 1
        refine List.map_congr_left ?_ |>.trans (List.map_id blocks)
        intro b hb
        exact hdec b (hall b hb)
    _ = bs := hflat

/-- ECB encryption preserves the length of whole-block inputs. -/
theorem ecb_length (enc : List Nat → List Nat) (bs : List Nat)
    (henc : ∀ b, b.length = 16 → (enc b).length = 16)
    (hmod : bs.length % 16 = 0) :
    (ecbEncryptWith enc bs).length = bs.length := by
  obtain ⟨hall, hflat⟩ := chunksOf16_spec bs hmod
  have : ∀ (blocks : List (List Nat)), (∀ b ∈ blocks, b.length = 16) →
      ((blocks.map enc).flatten).length = blocks.flatten.length := by
    intro blocks
    induction blocks with
    | nil => intro _; rfl
    | cons b rest ih =>
      intro hall2
      simp only [List.map_cons, List.flatten_cons, List.length_append]
      rw [henc b (hall2 b (List.mem_cons_self b rest)),
        hall2 b (List.mem_cons_self b rest),
        ih (fun c hc => hall2 c (List.mem_cons_of_mem b hc))]
  calc (ecbEncryptWith enc bs).length
      = (((chunksOf 16 bs).map enc).flatten).length := rfl
    _ = (chunksOf 16 bs).flatten.length := this _ hall
    _ = bs.length := by rw [hflat]

theorem getLastD_replicate (x : Nat) : ∀ n, (List.replicate (n + 1) x).getLastD 0 = x := by
  intro n
  induction n with
  | zero => rfl
  | succ m ih =>
    calc (List.replicate (m + 2) x).getLastD 0
        = (x :: List.replicate (m + 1) x).getLastD 0 := rfl
      _ = (List.replicate (m + 1) x).getLastD 0 := by
          rw [List.replicate_succ]; rfl
      _ = x := ih

theorem getLastD_append_of_ne_nil (l : List Nat) :
    ∀ (m : List Nat), m ≠ [] → (l ++ m).getLastD 0 = m.getLastD 0 := by
  induction l with
  | nil => intro m _; rfl
  | cons a l ih =>
    intro m hm
    have h1 : l ++ m ≠ [] := by
      intro hcon
      exact hm (List.append_eq_nil.mp hcon).2
    match hc : l ++ m with
    | [] => exact absurd hc h1
    | x :: xs =>
      calc ((a :: l) ++ m).getLastD 0 = (a :: (l ++ m)).getLastD 0 := rfl
        _ = (l ++ m).getLastD 0 := by rw [hc]; rfl
        _ = m.getLastD 0 := ih m hm

theorem utf8Char_ascii (c : Char) (h : c.toNat < 128) : utf8Char c = [c.toNat] := by
  simp [utf8Char, h]

theorem utf8List_ascii : ∀ (l : List Char), (∀ c ∈ l, c.toNat < 128) →
    (l.map utf8Char).flatten = l.map Char.toNat := by
  intro l
  induction l with
  | nil => intro _; rfl
  | cons c cs ih =>
    intro h
    simp only [List.map_cons, List.flatten_cons]
    rw [utf8Char_ascii c (h c (List.mem_cons_self c cs)),
      ih (fun d hd => h d (List.mem_cons_of_mem c hd))]
    rfl

/-- On an all-ASCII string, UTF-8 is one byte per character. -/
theorem utf8_ascii (s : String) (h : ∀ c ∈ s.data, c.toNat < 128) :
    utf8 s = s.data.map Char.toNat :=
  utf8List_ascii s.data h

theorem utf8_length_ascii (s : String) (h : ∀ c ∈ s.data, c.toNat < 128) :
    (utf8 s).length = s.length := by
  rw [utf8_ascii s h, List.length_map]
  rfl

theorem utf8Char_ofNat_le_16 (p : Nat) (h : p ≤ 16) :
    utf8Char (Char.ofNat p) = [p] := by
  interval_cases p <;> decide

theorem flatten_replicate_singleton (n a : Nat) :
    (List.replicate n ([a] : List Nat)).flatten = List.replicate n a := by
  induction n with
  | zero => rfl
  | succ m ih => simp [List.replicate_succ, ih]

/-- On an all-ASCII parameter, the character-level padding of
`_encrypt_param` followed by UTF-8 encoding agrees with byte-level
padding of the UTF-8 bytes. -/
theorem utf8_pad_param_ascii (s : String) (h : ∀ c ∈ s.data, c.toNat < 128) :
    utf8 (pad_param s) = padBytes (utf8 s) := by
  have hplen : 16 - s.length % 16 ≤ 16 := by omega
  have hmk : utf8 (String.mk (List.replicate (16 - s.length % 16)
      (Char.ofNat (16 - s.length % 16)))) =
      List.replicate (16 - s.length % 16) (16 - s.length % 16) := by
    unfold utf8
    show ((List.replicate (16 - s.length % 16)
        (Char.ofNat (16 - s.length % 16))).map utf8Char).flatten = _
    rw [List.map_replicate, utf8Char_ofNat_le_16 _ hplen, flatten_replicate_singleton]
  show utf8 (s ++ String.mk (List.replicate (16 - s.length % 16)
      (Char.ofNat (16 - s.length % 16)))) = padBytes (utf8 s)
  rw [utf8_append, hmk, padBytes, utf8_length_ascii s h]

/-- Stripping as many bytes as the last byte's value undoes `padBytes`. -/
theorem unpad_padBytes (pt : List Nat) : unpad (padBytes pt) = pt := by
  set p := 16 - pt.length % 16 with hp
  have hp1 : 1 ≤ p := by omega
  have hrep : (List.replicate p p : List Nat) ≠ [] := by
    intro hcon
    have := congrArg List.length hcon
    simp at this
    omega
  have hlast : (padBytes pt).getLastD 0 = p := by
    rw [padBytes, ← hp, getLastD_append_of_ne_nil _ _ hrep]
    match hq : p, hp1 with
    | q + 1, _ => exact getLastD_replicate (q + 1) q
  have hlen : (padBytes pt).length = pt.length + p := by
    simp [padBytes, ← hp]
  rw [unpad, hlast, hlen, Nat.add_sub_cancel, padBytes, ← hp, List.take_left]

/-- The receive loop never accumulates more than the data the oracle
delivers. -/
theorem recvLoop_length_le (n : Nat) :
    ∀ (chunks : List (List Nat)) (buffer : List Nat),
    (recvLoop n chunks buffer).length ≤ buffer.length + (chunks.map List.length).sum := by
  intro chunks
  induction chunks with
  | nil =>
    intro buffer
    simp [recvLoop]
  | cons c rest ih =>
    intro buffer
    simp only [recvLoop, List.map_cons, List.sum_cons]
    split
    · omega
    · split
      · omega
      · have h := ih (buffer ++ c)
        rw [List.length_append] at h
        omega

/-- A single delivery of exactly the declared byte count is returned
whole. -/
theorem recvLoop_single (n : Nat) (body : List Nat) (hlen : body.length = n) :
    recvLoop n [body] [] = body := by
  match hn : n, hlen with
  | 0, hlen =>
    have hb : body = [] := List.eq_nil_of_length_eq_zero hlen
    subst hb
    rfl
  | m + 1, hlen =>
    have hne : body.isEmpty = false := by
      cases body with
      | nil => simp at hlen
      | cons x xs => rfl
    show (if m + 1 ≤ ([] : List Nat).length then ([] : List Nat)
      else if body.isEmpty then ([] : List Nat)
      else recvLoop (m + 1) [] ([] ++ body)) = body
    rw [if_neg (by simp), hne]
    show recvLoop (m + 1) [] ([] ++ body) = body
    rw [List.nil_append]
    rfl

/-- A well-formed header within the ceiling: the receive loop's result is
returned as a success. -/
theorem receive_response_packLE32 (n : Nat) (chunks : List (List Nat))
    (hn : n ≤ 8192) :
    receive_response (packLE32 n) chunks = some (recvLoop n chunks []) := by
  have hu : unpackLE32 (packLE32 n) = n := unpackLE32_packLE32 n (by omega)
  unfold receive_response
  rw [if_neg (by rw [length_packLE32]; omega), hu, if_neg (by omega)]

/-! ## Claims -/

/-- C1: for every command string, password, salt and timestamp, the token
produced by `_generate_token` equals the first 8 characters of the base64
text encoding of the SHA-256 digest of the UTF-8 concatenation, in this
exact order, of the command string, the password, the salt, and the
decimal string form of the timestamp — that is, the source function
agrees with the spec's `deriveToken` on all inputs. -/
theorem claim_C1_token_derivation (password salt cmd : String) (ts : Nat) :
    generate_token password salt cmd ts = deriveToken cmd password salt ts := by
  show (base64EncodeStr (sha256 (utf8 (cmd ++ password ++ salt ++ toString ts)))).take 8 =
    (base64EncodeStr (sha256 (utf8 cmd ++ utf8 password ++ utf8 salt ++
      utf8 (Nat.repr ts)))).take 8
  rw [utf8_append, utf8_append, utf8_append]
  rfl

/-- C2: padding appends `p = 16 - (L mod 16)` copies of the byte value
`p`, with `p` always in `[1, 16]` and a full 16-byte block when `L` is a
multiple of 16; stripping as many trailing bytes as the last byte's value
from the ECB-decrypted ciphertext recovers the original plaintext, for
any per-block cipher/inverse pair; and on all-ASCII parameters the
character-level padding of `_encrypt_param` is exactly this byte-level
padding of the UTF-8 bytes. -/
theorem claim_C2_padding_roundtrip (pt : List Nat) (enc dec : List Nat → List Nat)
    (s : String)
    (henc : ∀ b, b.length = 16 → (enc b).length = 16)
    (hdec : ∀ b, b.length = 16 → dec (enc b) = b)
    (hascii : ∀ c ∈ s.data, c.toNat < 128) :
    (1 ≤ 16 - pt.length % 16 ∧ 16 - pt.length % 16 ≤ 16) ∧
    (pt.length % 16 = 0 → 16 - pt.length % 16 = 16) ∧
    unpad (ecbDecryptWith dec (ecbEncryptWith enc (padBytes pt))) = pt ∧
    utf8 (pad_param s) = padBytes (utf8 s) := by
  refine ⟨⟨by omega, by omega⟩, by omega, ?_, utf8_pad_param_ascii s hascii⟩
  have hmod : (padBytes pt).length % 16 = 0 := by
    simp only [padBytes, List.length_append, List.length_replicate]
    omega
  rw [ecb_roundtrip enc dec _ henc hdec hmod, unpad_padBytes]

/-- Witness for C2 at `pt = [7, 8, 9]`, the identity block cipher, and
the ASCII parameter `"abc"`. -/
theorem claim_C2_witness :
    (∀ b : List Nat, b.length = 16 → (id b).length = 16) ∧
    (∀ b : List Nat, b.length = 16 → id (id b) = b) ∧
    (∀ c ∈ "abc".data, c.toNat < 128) ∧
    ((1 ≤ 16 - ([7, 8, 9] : List Nat).length % 16 ∧
        16 - ([7, 8, 9] : List Nat).length % 16 ≤ 16) ∧
      (([7, 8, 9] : List Nat).length % 16 = 0 →
        16 - ([7, 8, 9] : List Nat).length % 16 = 16) ∧
      unpad (ecbDecryptWith id (ecbEncryptWith id (padBytes [7, 8, 9]))) = [7, 8, 9] ∧
      utf8 (pad_param "abc") = padBytes (utf8 "abc")) :=
  ⟨fun _ h => h, fun _ _ => rfl, by decide,
    claim_C2_padding_roundtrip [7, 8, 9] id id "abc" (fun _ h => h) (fun _ _ => rfl)
      (by decide)⟩

/-- C3 as written is false: with a declared length of 10 and a peer that
delivers 3 bytes and closes, `_receive_response` returns the short
buffer as a successful result instead of failing (no `ProtocolError`
exists anywhere in the source). -/
theorem claim_C3_counterexample :
    receive_response (packLE32 10) [[65, 66, 67]] = some [65, 66, 67] := by decide

/-- C3 (amended): for every declared length `n` within the 8192 ceiling,
if the peer closes after delivering fewer than `n` body bytes,
`_receive_response` never fails with `ProtocolError("truncated
response")` (no such class exists): the byte loop accumulates a buffer
strictly shorter than `n` and returns it; when that short buffer is
valid UTF-8 it is returned, decoded, as a successful result, and when it
is not, the only failure is the `UnicodeDecodeError` raised by line 91's
`buffer.decode()` — reached, e.g., by a declared length of 2 with the
single delivered byte `0xC3`. -/
theorem claim_C3_amended_short_read (n : Nat) (chunks : List (List Nat))
    (hn : n ≤ 8192) (hshort : (chunks.map List.length).sum < n) :
    (recvLoop n chunks []).length < n ∧
    receive_response (packLE32 n) chunks = some (recvLoop n chunks []) ∧
    (∀ s, utf8Decode (recvLoop n chunks []) = some s →
      receive_response_decoded (packLE32 n) chunks = .ok (some s)) ∧
    (utf8Decode (recvLoop n chunks []) = none →
      receive_response_decoded (packLE32 n) chunks = .error .unicodeDecodeError) ∧
    receive_response_decoded (packLE32 2) [[195]] = .error .unicodeDecodeError := by
  have hlen : (recvLoop n chunks []).length < n := by
    have h := recvLoop_length_le n chunks []
    simp only [List.length_nil, Nat.zero_add] at h
    omega
  have hu : unpackLE32 (packLE32 n) = n := unpackLE32_packLE32 n (by omega)
  have hdec : receive_response_decoded (packLE32 n) chunks =
      (match utf8Decode (recvLoop n chunks []) with
       | some s => Except.ok (some s)
       | none => Except.error PyErr.unicodeDecodeError) := by
    unfold receive_response_decoded
    rw [if_neg (by rw [length_packLE32]; omega), hu, if_neg (by omega)]
  refine ⟨hlen, receive_response_packLE32 n chunks hn, ?_, ?_, rfl⟩
  · intro s hs
    rw [hdec, hs]
  · intro hs
    rw [hdec, hs]

/-- Witness for the amended C3 at `n = 10` with 3 delivered ASCII
bytes. -/
theorem claim_C3_amended_witness :
    (10 : Nat) ≤ 8192 ∧
    (([[65, 66, 67]] : List (List Nat)).map List.length).sum < 10 ∧
    ((recvLoop 10 [[65, 66, 67]] []).length < 10 ∧
      receive_response (packLE32 10) [[65, 66, 67]] =
        some (recvLoop 10 [[65, 66, 67]] []) ∧
      (∀ s, utf8Decode (recvLoop 10 [[65, 66, 67]] []) = some s →
        receive_response_decoded (packLE32 10) [[65, 66, 67]] = .ok (some s)) ∧
      (utf8Decode (recvLoop 10 [[65, 66, 67]] []) = none →
        receive_response_decoded (packLE32 10) [[65, 66, 67]] =
          .error .unicodeDecodeError) ∧
      receive_response_decoded (packLE32 2) [[195]] = .error .unicodeDecodeError) :=
  ⟨by decide, by decide,
    claim_C3_amended_short_read 10 [[65, 66, 67]] (by decide) (by decide)⟩

/-- C4 as written is false in its failure mode: on a declared length of
8193 the failure is `_receive_response` returning `None`, which `send`
surfaces as `RuntimeError("Failed to receive response")` — not a
`ProtocolError("oversized response")`, a class the source never
defines. -/
theorem claim_C4_counterexample :
    send_result (packLE32 8193) [[65]] =
      .error (.runtimeError "Failed to receive response") ∧
    send_result (packLE32 8193) [[65]] ≠
      .error (.protocolError "oversized response") := by
  constructor
  · rfl
  · intro hcon
    rw [show send_result (packLE32 8193) [[65]] =
      .error (.runtimeError "Failed to receive response") from rfl] at hcon
    simp at hcon

/-- C4 (amended): for every declared length `n > 8192`, receive fails
(returns `None`, surfaced by `send` as `RuntimeError`), and the failure
is independent of whatever body data the peer would deliver — no read of
the body is consulted. -/
theorem claim_C4_amended_oversized (n : Nat) (chunks : List (List Nat))
    (hover : 8192 < n) (hfit : n < 4294967296) :
    receive_response (packLE32 n) chunks = none ∧
    send_result (packLE32 n) chunks =
      .error (.runtimeError "Failed to receive response") := by
  have hr : receive_response (packLE32 n) chunks = none := by
    unfold receive_response
    rw [if_neg (by rw [length_packLE32]; omega), unpackLE32_packLE32 n hfit,
      if_pos hover]
  exact ⟨hr, by rw [send_result, hr]⟩

/-- Witness for the amended C4 at `n = 8193` with pending body data. -/
theorem claim_C4_amended_witness :
    (8192 : Nat) < 8193 ∧ (8193 : Nat) < 4294967296 ∧
    (receive_response (packLE32 8193) [[1, 2, 3]] = none ∧
      send_result (packLE32 8193) [[1, 2, 3]] =
        .error (.runtimeError "Failed to receive response")) :=
  ⟨by decide, by decide,
    claim_C4_amended_oversized 8193 [[1, 2, 3]] (by decide) (by decide)⟩

/-- C5 is violated by the code: `close` never resets `self.sock`, so a
second `close` calls `shutdown` on the already-closed socket and raises
`OSError (EBADF)`; `close` after a failed `connect` (socket object
assigned but never connected) raises `OSError (ENOTCONN)`.  Only the
never-opened case (`self.sock` is `None`) is safe. -/
theorem claim_C5_close_raises :
    tcp_close (some .connected) = .ok (some .closedSock) ∧
    (tcp_close (some .connected)).bind tcp_close = .error (.osError "EBADF") ∧
    tcp_close (some .notConnected) = .error (.osError "ENOTCONN") ∧
    tcp_close none = .ok none :=
  ⟨rfl, rfl, rfl, rfl⟩

/-- C6 as written is false: `send` writes the caller-supplied
`message_length` argument as the header, not the byte length of the
payload it writes; with `message = "AB"` and `message_length = 5` the
header reads 5 while the payload written is 2 bytes. -/
theorem claim_C6_counterexample :
    send_frame "AB" 5 = some [5, 0, 0, 0, 65, 66] ∧
    unpackLE32 (([5, 0, 0, 0, 65, 66] : List Nat).take 4) ≠
      (([5, 0, 0, 0, 65, 66] : List Nat).drop 4).length := by
  decide

/-- C6 (amended): `send` writes a 4-byte little-endian header equal to
its `message_length` argument followed by the message's UTF-8 bytes
verbatim; whenever the caller passes the message's encoded byte length
(as both call sites do), a peer reading the frame recovers a payload
byte-identical to the original with the header equal to its length. -/
theorem claim_C6_amended_roundtrip (message : String)
    (hlen : (utf8 message).length ≤ 8192) :
    send_frame message (utf8 message).length =
      some (packLE32 (utf8 message).length ++ utf8 message) ∧
    unpackLE32 ((packLE32 (utf8 message).length ++ utf8 message).take 4) =
      (utf8 message).length ∧
    receive_response ((packLE32 (utf8 message).length ++ utf8 message).take 4)
      [(packLE32 (utf8 message).length ++ utf8 message).drop 4] =
      some (utf8 message) := by
  have htake : (packLE32 (utf8 message).length ++ utf8 message).take 4 =
      packLE32 (utf8 message).length := by
    rw [← length_packLE32 (utf8 message).length]
    exact List.take_left ..
  have hdrop : (packLE32 (utf8 message).length ++ utf8 message).drop 4 =
      utf8 message := by
    rw [← length_packLE32 (utf8 message).length]
    exact List.drop_left ..
  refine ⟨?_, ?_, ?_⟩
  · rw [send_frame, if_pos (by omega)]
  · rw [htake, unpackLE32_packLE32 _ (by omega)]
  · rw [htake, hdrop, receive_response_packLE32 _ _ hlen,
      recvLoop_single _ _ rfl]

/-- Witness for the amended C6 at `message = "hi"`. -/
theorem claim_C6_amended_witness :
    (utf8 "hi").length ≤ 8192 ∧
    (send_frame "hi" (utf8 "hi").length =
        some (packLE32 (utf8 "hi").length ++ utf8 "hi") ∧
      unpackLE32 ((packLE32 (utf8 "hi").length ++ utf8 "hi").take 4) =
        (utf8 "hi").length ∧
      receive_response ((packLE32 (utf8 "hi").length ++ utf8 "hi").take 4)
        [(packLE32 (utf8 "hi").length ++ utf8 "hi").drop 4] = some (utf8 "hi")) :=
  ⟨by decide, claim_C6_amended_roundtrip "hi" (by decide)⟩

/-- C7: in every envelope the Codec builds, `param` is either the
caller's parameter exactly as given (plain and authenticated-plain
builders) or entirely replaced by the base64 ciphertext string
(authenticated-encrypted builders, whose full member lists are spelled
out — no other member carries the plaintext). -/
theorem claim_C7_param_invariant (aes : List Nat → List Nat → List Nat)
    (account password salt cmd : String) (v : JVal) (ts : Nat)
    (u1 w1 p1 u2 w2 p2 u3 w3 p3 username old_passwd new_passwd : String) :
    (get_request_cmds_obj cmd (some v)).lookup "param" = some v ∧
    (set_request_cmds_obj account password salt cmd (some v) ts).lookup "param" =
      some v ∧
    set_miner_pools_obj aes account password salt u1 w1 p1 u2 w2 p2 u3 w3 p3 ts =
      [("cmd", .str "set.miner.pools"), ("ts", .num (ts : Int)),
       ("token", .str (generate_token password salt "set.miner.pools" ts)),
       ("account", .str account),
       ("param", .str (encrypt_param aes password salt
          (jdump (set_miner_pools_param u1 w1 p1 u2 w2 p2 u3 w3 p3))
          "set.miner.pools" ts))] ∧
    set_user_passwd_obj aes account password salt username old_passwd new_passwd ts =
      [("cmd", .str "set.user.change_passwd"), ("ts", .num (ts : Int)),
       ("token", .str (generate_token password salt "set.user.change_passwd" ts)),
       ("account", .str account),
       ("param", .str (encrypt_param aes password salt
          (jdump (.obj [("account", .str username), ("new", .str new_passwd),
            ("old", .str old_passwd)])) "set.user.change_passwd" ts))] :=
  ⟨rfl, rfl, rfl, rfl⟩

/-- C8: for the same command, password, salt and timestamp, the AES key
`_encrypt_param` derives is byte-for-byte the digest `_generate_token`
derives its token from — both equal the spec's `deriveKeyMaterial`. -/
theorem claim_C8_shared_key_material (aes : List Nat → List Nat → List Nat)
    (password salt param cmd : String) (ts : Nat) :
    generate_token password salt cmd ts =
      (base64EncodeStr (deriveKeyMaterial cmd password salt ts)).take 8 ∧
    encrypt_param aes password salt param cmd ts =
      base64EncodeStr (ecbEncryptWith (aes (deriveKeyMaterial cmd password salt ts))
        (utf8 (pad_param param))) := by
  constructor
  · show (base64EncodeStr (sha256 (utf8 (cmd ++ password ++ salt ++ toString ts)))).take 8 =
      (base64EncodeStr (sha256 (utf8 cmd ++ utf8 password ++ utf8 salt ++
        utf8 (Nat.repr ts)))).take 8
    rw [utf8_append, utf8_append, utf8_append]
    rfl
  · show base64EncodeStr (ecbEncryptWith
        (aes (sha256 (utf8 (cmd ++ password ++ salt ++ toString ts))))
        (utf8 (pad_param param))) =
      base64EncodeStr (ecbEncryptWith
        (aes (sha256 (utf8 cmd ++ utf8 password ++ utf8 salt ++ utf8 (Nat.repr ts))))
        (utf8 (pad_param param)))
    rw [utf8_append, utf8_append, utf8_append]
    rfl

/-- C9 as written is false in its byte count: the quoted plaintext
`'{"cointype":"btc"}'` is 18 bytes, not 19.  (The plaintext the code
actually encrypts for `set.miner.cointype`, `json.dumps` output with a
space after the colon, is the 19-byte variant.) -/
theorem claim_C9_counterexample :
    (utf8 "\x7b\"cointype\":\"btc\"\x7d").length = 18 ∧
    (utf8 "\x7b\"cointype\":\"btc\"\x7d").length ≠ 19 := by decide

/-- C9 (amended): the quoted plaintext is 18 bytes; encrypting it — or
the 19-byte `json.dumps` text the `set.miner.cointype` path actually
produces — under any fixed key yields a ciphertext of exactly 32 bytes
(two 16-byte blocks), because the pad length is 16 minus the plaintext
length modulo 16. -/
theorem claim_C9_amended_ciphertext_length (enc : List Nat → List Nat)
    (henc : ∀ b, b.length = 16 → (enc b).length = 16) :
    jdump (.obj [("cointype", JVal.str "btc")]) = "\x7b\"cointype\": \"btc\"\x7d" ∧
    (ecbEncryptWith enc (utf8 (pad_param "\x7b\"cointype\":\"btc\"\x7d"))).length = 32 ∧
    (ecbEncryptWith enc (utf8 (pad_param "\x7b\"cointype\": \"btc\"\x7d"))).length = 32 := by
  refine ⟨rfl, ?_, ?_⟩
  · rw [ecb_length enc _ henc (by decide)]
    decide
  · rw [ecb_length enc _ henc (by decide)]
    decide

/-- Witness for the amended C9 with the identity block cipher. -/
theorem claim_C9_amended_witness :
    (∀ b : List Nat, b.length = 16 → (id b).length = 16) ∧
    (jdump (.obj [("cointype", JVal.str "btc")]) = "\x7b\"cointype\": \"btc\"\x7d" ∧
      (ecbEncryptWith id (utf8 (pad_param "\x7b\"cointype\":\"btc\"\x7d"))).length = 32 ∧
      (ecbEncryptWith id (utf8 (pad_param "\x7b\"cointype\": \"btc\"\x7d"))).length = 32) :=
  ⟨fun _ h => h, claim_C9_amended_ciphertext_length id (fun _ h => h)⟩

/-- C10: the plain and authenticated-plain builders always emit a
`param` member; with no caller-supplied parameter it carries JSON
`null` rather than being omitted — shown on the member lists for every
command and on the serialized text of the handshake command. -/
theorem claim_C10_param_null_present (cmd account password salt : String) (ts : Nat) :
    (get_request_cmds_obj cmd none).lookup "param" = some JVal.null ∧
    (set_request_cmds_obj account password salt cmd none ts).lookup "param" =
      some JVal.null ∧
    get_request_cmds "get.device.info" none =
      "\x7b\"cmd\": \"get.device.info\", \"param\": null\x7d" :=
  ⟨rfl, rfl, by decide⟩

end Whatsminer
